import Mathlib

/-!
Verification of the canbed_gs firmware core (gs_usb protocol engine) against its
specification.  The definitions below are a shallow embedding of the Rust
sources: `src/main.rs`, `src/frame_ext.rs`, `src/usbd_gs/{frame, channel_event,
channel_config, gs_class, gs_port}.rs`.  Machine integers are modelled as `Nat`
with explicit `% 2^w` where wrap-around matters; Rust panics (integer division
by zero, out-of-bounds slicing, `copy_from_slice` length mismatch) are made
explicit through a `RustResult` type; fallible operations return `Option`.
-/

set_option autoImplicit false

namespace CanbedGs

/-- Outcome of a Rust computation that may panic (diverge) at runtime. -/
inductive RustResult (α : Type) where
  | ok (value : α)
  | panic
deriving DecidableEq, Repr

/-! ### mcp2515 crate interface (external collaborator)

The firmware drives an MCP2515 transceiver through the `mcp2515` crate.  Only
the parts of that crate's public interface that the firmware uses are embedded:
the `CanSpeed` and `OpMode` enumerations, the `CanFrame` type with the
`embedded_hal::can::Frame` operations (`new`, `new_remote`, `id`,
`is_remote_frame`, `dlc`, `data`), and the submission error cases matched in
`main.rs` (`TxBusy`, `NewModeTimeout`, catch-all).  `CanFrame` stores a fixed
8-byte payload; `data()` returns the first `dlc` bytes of it. -/

/-- `mcp2515::CanSpeed`: the discrete bit-rate settings of the transceiver. -/
inductive CanSpeed where
  | Kbps5 | Kbps10 | Kbps20 | Kbps31_25 | Kbps33_3 | Kbps40 | Kbps50
  | Kbps80 | Kbps100 | Kbps125 | Kbps200 | Kbps250 | Kbps500 | Kbps1000
deriving DecidableEq, Repr

/-- `mcp2515::regs::OpMode`: transceiver operating modes used by the bridge. -/
inductive OpMode where
  | Normal | Sleep | Loopback | ListenOnly
deriving DecidableEq, Repr

/-- CAN identifier (`embedded_hal::can::Id`): 11-bit standard or 29-bit
extended.  The embedded `Nat` is the raw identifier value; the source
constructs these through `new_unchecked`, so no bound is enforced here,
mirroring the unchecked conversion in `frame_ext.rs`. -/
inductive CanId where
  | Standard (raw : Nat)
  | Extended (raw : Nat)
deriving DecidableEq, Repr

/-- `mcp2515::frame::CanFrame`: id, remote flag, declared length and the fixed
8-byte data buffer (as a list of length 8, unused bytes zero). -/
structure CanFrame where
  id : CanId
  rtr : Bool
  dlc : Nat
  data : List Nat
deriving DecidableEq, Repr

/-- `embedded_hal::can::Frame::new` as implemented by the mcp2515 crate:
fails when more than 8 data bytes are supplied, otherwise copies the payload
into the 8-byte buffer (rest zero) and sets `dlc` to the payload length. -/
def CanFrame.new (id : CanId) (data : List Nat) : Option CanFrame :=
  if data.length > 8 then none
  else some { id := id, rtr := false, dlc := data.length,
              data := (data ++ List.replicate 8 0).take 8 }

/-- `embedded_hal::can::Frame::new_remote`: fails when the declared length
exceeds 8; remote frames carry no payload (buffer zeroed). -/
def CanFrame.new_remote (id : CanId) (dlc : Nat) : Option CanFrame :=
  if dlc > 8 then none
  else some { id := id, rtr := true, dlc := dlc, data := List.replicate 8 0 }

/-- `embedded_hal::can::Frame::data()`: the first `dlc` bytes of the buffer. -/
def CanFrame.dataSlice (f : CanFrame) : List Nat :=
  f.data.take f.dlc

/-- Whether the frame's identifier is extended. -/
def CanFrame.isExtended (f : CanFrame) : Bool :=
  match f.id with
  | .Standard _ => false
  | .Extended _ => true

/-! ### Bit-rate quantization (`main.rs`, `can_speed_from_bit_rate`)

The source matches on `bit_rate / 1000` against the inclusive ranges
`0..=5000`, `5001..=10000`, ..., `250001..=500000`, `_`.  The match is an
increasing chain of inclusive upper bounds, embedded as an `if`-chain. -/

/-- `can_speed_from_bit_rate` from `main.rs` lines 179-196, verbatim: the
nominal `bit_rate` (in bit/s, a `u32`) is divided by 1000 and the quotient is
compared against the listed bounds. -/
def can_speed_from_bit_rate (bit_rate : Nat) : CanSpeed :=
  if bit_rate / 1000 ≤ 5000 then .Kbps5
  else if bit_rate / 1000 ≤ 10000 then .Kbps10
  else if bit_rate / 1000 ≤ 20000 then .Kbps20
  else if bit_rate / 1000 ≤ 31250 then .Kbps31_25
  else if bit_rate / 1000 ≤ 33300 then .Kbps33_3
  else if bit_rate / 1000 ≤ 40000 then .Kbps40
  else if bit_rate / 1000 ≤ 50000 then .Kbps50
  else if bit_rate / 1000 ≤ 80000 then .Kbps80
  else if bit_rate / 1000 ≤ 100000 then .Kbps100
  else if bit_rate / 1000 ≤ 125000 then .Kbps125
  else if bit_rate / 1000 ≤ 200000 then .Kbps200
  else if bit_rate / 1000 ≤ 250000 then .Kbps250
  else if bit_rate / 1000 ≤ 500000 then .Kbps500
  else .Kbps1000

/-! ### Channel events (`channel_event.rs`) and mode derivation (`main.rs`) -/

/-- `ChannelFlagsBit` from `channel_event.rs`: bit positions of the gs_usb
channel-mode flag word. -/
inductive ChannelFlagsBit where
  | ListenOnly | Loopback | TripleSample | OneShot | HwTimestamp
  | PadPktsToMaxPktSize | Fd
deriving DecidableEq, Repr

/-- Numeric value of each `ChannelFlagsBit` (`#[repr(u32)]` discriminants). -/
def ChannelFlagsBit.toNat : ChannelFlagsBit → Nat
  | .ListenOnly => 1
  | .Loopback => 2
  | .TripleSample => 4
  | .OneShot => 8
  | .HwTimestamp => 16
  | .PadPktsToMaxPktSize => 128
  | .Fd => 256

/-- `ChannelFlags`: a `u32` bitset. -/
structure ChannelFlags where
  val : Nat
deriving DecidableEq, Repr

/-- `ChannelFlags::is_set`: `self.0 & bit as u32 != 0`. -/
def ChannelFlags.is_set (f : ChannelFlags) (bit : ChannelFlagsBit) : Bool :=
  f.val &&& bit.toNat != 0

/-- `ChannelMode` from `channel_event.rs`: a `u32` on/off word and the flag
bitset, decoded from a Mode control transfer. -/
structure ChannelMode where
  mode : Nat
  flags : ChannelFlags
deriving DecidableEq, Repr

/-- `ChannelMode::is_on`: `self.mode != 0`. -/
def ChannelMode.is_on (m : ChannelMode) : Bool :=
  m.mode != 0

/-- The transceiver mode computation of `main.rs` lines 120-134, embedded as
the same sequence of overwriting assignments: start from `Normal`, overwrite
with `Loopback` if the loopback flag is set, then overwrite with `ListenOnly`
if the listen-only flag is set, then overwrite with `Sleep` if the channel is
administratively off. -/
def derive_mcp_mode (mode : ChannelMode) : OpMode :=
  let m0 : OpMode := .Normal
  let m1 : OpMode := if mode.flags.is_set .Loopback then .Loopback else m0
  let m2 : OpMode := if mode.flags.is_set .ListenOnly then .ListenOnly else m1
  if !mode.is_on then .Sleep else m2

/-! ### Theorems for claims C1 and C2 -/

/-- C1 counterexample: the claim states that a nominal rate of 125000 bit/s
maps to the 125 kbit/s bucket; on the code it maps to the 5 kbit/s bucket,
because `can_speed_from_bit_rate` divides the rate by 1000 before comparing it
against bounds that are expressed in bit/s. -/
theorem c1_quantization_counterexample :
    can_speed_from_bit_rate 125000 = CanSpeed.Kbps5 ∧
    CanSpeed.Kbps5 ≠ CanSpeed.Kbps125 := by
  constructor
  · rfl
  · decide

/-- C1 amended: because the computed rate is divided by 1000 and then compared
against bounds expressed in bit/s, every nominal rate up to 5000999 bit/s
(in particular 1, 5000, 125000, 125001 and 500001) maps to the 5 kbit/s
bucket, and the 1000 kbit/s bucket is selected exactly for representable
(`u32`) rates of at least 500001000 bit/s. -/
theorem c1_quantization_amended :
    (∀ r : Nat, r ≤ 5000999 → can_speed_from_bit_rate r = CanSpeed.Kbps5) ∧
    (∀ r : Nat, 500001000 ≤ r → r < 4294967296 →
      can_speed_from_bit_rate r = CanSpeed.Kbps1000) ∧
    (∀ r : Nat, r ≤ 500000999 → can_speed_from_bit_rate r ≠ CanSpeed.Kbps1000) := by
  refine ⟨?_, ?_, ?_⟩
  · intro r hr
    unfold can_speed_from_bit_rate
    rw [if_pos (by omega)]
  · intro r hr _
    unfold can_speed_from_bit_rate
    repeat rw [if_neg (by omega)]
  · intro r hr hc
    unfold can_speed_from_bit_rate at hc
    by_cases h1 : r / 1000 ≤ 5000
    · rw [if_pos h1] at hc
      exact absurd hc (by decide)
    rw [if_neg h1] at hc
    by_cases h2 : r / 1000 ≤ 10000
    · rw [if_pos h2] at hc
      exact absurd hc (by decide)
    rw [if_neg h2] at hc
    by_cases h3 : r / 1000 ≤ 20000
    · rw [if_pos h3] at hc
      exact absurd hc (by decide)
    rw [if_neg h3] at hc
    by_cases h4 : r / 1000 ≤ 31250
    · rw [if_pos h4] at hc
      exact absurd hc (by decide)
    rw [if_neg h4] at hc
    by_cases h5 : r / 1000 ≤ 33300
    · rw [if_pos h5] at hc
      exact absurd hc (by decide)
    rw [if_neg h5] at hc
    by_cases h6 : r / 1000 ≤ 40000
    · rw [if_pos h6] at hc
      exact absurd hc (by decide)
    rw [if_neg h6] at hc
    by_cases h7 : r / 1000 ≤ 50000
    · rw [if_pos h7] at hc
      exact absurd hc (by decide)
    rw [if_neg h7] at hc
    by_cases h8 : r / 1000 ≤ 80000
    · rw [if_pos h8] at hc
      exact absurd hc (by decide)
    rw [if_neg h8] at hc
    by_cases h9 : r / 1000 ≤ 100000
    · rw [if_pos h9] at hc
      exact absurd hc (by decide)
    rw [if_neg h9] at hc
    by_cases h10 : r / 1000 ≤ 125000
    · rw [if_pos h10] at hc
      exact absurd hc (by decide)
    rw [if_neg h10] at hc
    by_cases h11 : r / 1000 ≤ 200000
    · rw [if_pos h11] at hc
      exact absurd hc (by decide)
    rw [if_neg h11] at hc
    by_cases h12 : r / 1000 ≤ 250000
    · rw [if_pos h12] at hc
      exact absurd hc (by decide)
    rw [if_neg h12] at hc
    by_cases h13 : r / 1000 ≤ 500000
    · rw [if_pos h13] at hc
      exact absurd hc (by decide)
    rw [if_neg h13] at hc
    omega

/-- Witness for C1 amended at concrete rates 125000, 500001000 and 1. -/
theorem c1_quantization_amended_witness :
    can_speed_from_bit_rate 125000 = CanSpeed.Kbps5 ∧
    can_speed_from_bit_rate 500001000 = CanSpeed.Kbps1000 ∧
    can_speed_from_bit_rate 1 ≠ CanSpeed.Kbps1000 :=
  ⟨c1_quantization_amended.1 125000 (by omega),
   c1_quantization_amended.2.1 500001000 (by omega) (by omega),
   c1_quantization_amended.2.2 1 (by omega)⟩

/-- C2 counterexample: for an administratively-on channel mode with both the
listen-only and loopback flags set (flag word 3), the code derives
`ListenOnly`, not `Loopback` as the claim states. -/
theorem c2_mode_priority_counterexample :
    derive_mcp_mode ⟨1, ⟨3⟩⟩ = OpMode.ListenOnly ∧
    OpMode.ListenOnly ≠ OpMode.Loopback := by
  constructor
  · rfl
  · decide

/-- C2 amended: the derived transceiver mode follows the fixed priority Sleep
(channel off), then Listen-Only, then Loopback, then Normal; in particular,
when both flags are set on an on channel the result is Listen-Only, because
the listen-only check overwrites the loopback assignment. -/
theorem c2_mode_priority_amended (m : ChannelMode) :
    derive_mcp_mode m =
      if m.is_on = false then OpMode.Sleep
      else if m.flags.is_set .ListenOnly then OpMode.ListenOnly
      else if m.flags.is_set .Loopback then OpMode.Loopback
      else OpMode.Normal := by
  unfold derive_mcp_mode
  cases hOn : m.is_on <;>
    cases hLo : m.flags.is_set .Loopback <;>
      cases hLi : m.flags.is_set .ListenOnly <;>
        simp [hOn, hLo, hLi]

/-! ### Wire frame (`frame.rs`): the gs_usb host-compatibility record -/

/-- `HostCanIdBits` from `frame.rs`: flag bits of the packed CAN id word. -/
inductive HostCanIdBits where
  | ErrorFrame | RemoteFrame | ExtendedId
deriving DecidableEq, Repr

/-- Numeric value of each `HostCanIdBits` (`#[repr(u32)]` discriminants:
`1 << 29`, `1 << 30`, `1 << 31`). -/
def HostCanIdBits.toNat : HostCanIdBits → Nat
  | .ErrorFrame => 536870912
  | .RemoteFrame => 1073741824
  | .ExtendedId => 2147483648

/-- `HostCanId`: the packed `u32` CAN id word. -/
structure HostCanId where
  val : Nat
deriving DecidableEq, Repr

/-- `HostCanId::new`: masks the raw id to 29 bits and ors in the given flag
bits (`bits.iter().fold(raw_id & 0x1fffffff, |l, r| l | r)`). -/
def HostCanId.new (raw_id : Nat) (bits : List HostCanIdBits) : HostCanId :=
  ⟨bits.foldl (fun l r => l ||| r.toNat) (raw_id &&& 0x1fffffff)⟩

/-- `HostCanId::id`: the low 29 bits. -/
def HostCanId.id (c : HostCanId) : Nat :=
  c.val &&& 0x1fffffff

/-- `HostCanId::is_set`: `self.0 & bit as u32 != 0`. -/
def HostCanId.is_set (c : HostCanId) (bit : HostCanIdBits) : Bool :=
  c.val &&& bit.toNat != 0

/-- `HostFrameFlagsBits` from `frame.rs` (`#[repr(u8)]`). -/
inductive HostFrameFlagsBits where
  | Overflow | Fd | Brs | Esi
deriving DecidableEq, Repr

/-- Numeric value of each `HostFrameFlagsBits`. -/
def HostFrameFlagsBits.toNat : HostFrameFlagsBits → Nat
  | .Overflow => 1
  | .Fd => 2
  | .Brs => 4
  | .Esi => 8

/-- `HostFrameFlags`: the `u8` flags byte. -/
structure HostFrameFlags where
  val : Nat
deriving DecidableEq, Repr

/-- `HostFrameFlags::new`: or of the given bits. -/
def HostFrameFlags.new (bits : List HostFrameFlagsBits) : HostFrameFlags :=
  ⟨bits.foldl (fun l r => l ||| r.toNat) 0⟩

/-- `HostFrameFlags::is_set`: `self.0 & bit as u8 != 0`. -/
def HostFrameFlags.is_set (f : HostFrameFlags) (bit : HostFrameFlagsBits) : Bool :=
  f.val &&& bit.toNat != 0

/-- `HostFrameFlags::set`: `self.0 |= bit as u8`. -/
def HostFrameFlags.set (f : HostFrameFlags) (bit : HostFrameFlagsBits) : HostFrameFlags :=
  ⟨f.val ||| bit.toNat⟩

/-- `HostFrame` from `frame.rs`: the fixed gs_usb wire frame.  `bytes` is the
64-byte payload as a list (length 64 for every frame the firmware builds or
parses). -/
structure HostFrame where
  echo_id : Nat
  can_id : HostCanId
  can_dlc : Nat
  channel : Nat
  flags : HostFrameFlags
  reserved : Nat
  bytes : List Nat
deriving DecidableEq, Repr

/-- `HostFrame::new`: a missing echo id becomes the `u32::MAX` sentinel, the
reserved byte is zero. -/
def HostFrame.new (echo_id : Option Nat) (can_id : HostCanId) (can_dlc : Nat)
    (channel : Nat) (flags : HostFrameFlags) (bytes : List Nat) : HostFrame :=
  { echo_id := echo_id.getD 4294967295, can_id := can_id, can_dlc := can_dlc,
    channel := channel, flags := flags, reserved := 0, bytes := bytes }

/-! ### Frame translation (`frame_ext.rs`) -/

/-- Rust `<[u8]>::copy_from_slice`: copies `src` over `dst`, panicking unless
the two slices have the same length. -/
def copy_from_slice (dst src : List Nat) : RustResult (List Nat) :=
  if src.length = dst.length then .ok src else .panic

/-- `ToHostFrame::to_host_frame for CanFrame` (`frame_ext.rs` lines 14-33):
packs the identifier with the remote/extended bits, then copies
`self.data()` into a zeroed 64-byte buffer with `copy_from_slice` (which
panics when `self.data()` is not exactly 64 bytes long), and builds the
`HostFrame` with no echo id and empty flags. -/
def to_host_frame (f : CanFrame) (channel : Nat) : RustResult HostFrame :=
  let flags := HostFrameFlags.new []
  let can_id : HostCanId :=
    match f.id, f.rtr with
    | .Standard raw, true => HostCanId.new raw [.RemoteFrame]
    | .Standard raw, false => HostCanId.new raw []
    | .Extended raw, true => HostCanId.new raw [.RemoteFrame, .ExtendedId]
    | .Extended raw, false => HostCanId.new raw [.ExtendedId]
  match copy_from_slice (List.replicate 64 0) f.dataSlice with
  | .panic => .panic
  | .ok bytes => .ok (HostFrame.new none can_id f.dlc channel flags bytes)

/-- `FromHostFrame::from_host_frame for CanFrame` (`frame_ext.rs` lines
37-50): picks the extended or standard identifier representation from the
extended-id bit — via `new_unchecked`, without any range validation, the
standard case truncating `id()` with an `as u16` cast — then builds a remote
or data frame from the remote bit.  The data path slices
`frame.bytes[..can_dlc]`, which panics when `can_dlc` exceeds the 64-byte
buffer. -/
def from_host_frame (frame : HostFrame) : RustResult (Option CanFrame) :=
  let id : CanId :=
    if frame.can_id.is_set .ExtendedId then .Extended frame.can_id.id
    else .Standard (frame.can_id.id % 65536)
  if frame.can_id.is_set .RemoteFrame then
    .ok (CanFrame.new_remote id frame.can_dlc)
  else if frame.can_dlc ≤ frame.bytes.length then
    .ok (CanFrame.new id (frame.bytes.take frame.can_dlc))
  else .panic

/-! ### Bridge loop queues and frame shuttling (`main.rs`) -/

/-- `ringbuffer::ConstGenericRingBuffer::push` with capacity `cap`: appends
at the back, silently overwriting (dropping) the oldest entry when full. -/
def ringPush {α : Type} (cap : Nat) (q : List α) (x : α) : List α :=
  if q.length < cap then q ++ [x] else q.tail ++ [x]

/-- Outcome of `MCP2515::send_message` as matched by the bridge loop:
success, the two transient errors, or any other failure. -/
inductive McpSendResult where
  | ok | txBusy | newModeTimeout | otherErr
deriving DecidableEq, Repr

/-- The receive side of the bridge loop (`main.rs` lines 154-156): a frame
read from the transceiver is translated with channel index 1 and pushed into
the host-bound inbox (capacity 8). -/
def receive_step (inbox : List HostFrame) (received : Option CanFrame) :
    RustResult (List HostFrame) :=
  match received with
  | none => .ok inbox
  | some mcp_frame =>
    match to_host_frame mcp_frame 1 with
    | .panic => .panic
    | .ok host_frame => .ok (ringPush 8 inbox host_frame)

/-- The outbox-submission step of the bridge loop (`main.rs` lines 158-175),
with the transceiver's answer for the head frame supplied as a parameter:
on translation failure the head is dropped (`skip`); on success it is moved
into the inbox unchanged; on `TxBusy`/`NewModeTimeout` nothing changes; on
any other error the head is dequeued, its overflow flag is set, and it is
pushed into the inbox. -/
def outbox_step (inbox outbox : List HostFrame) (send : McpSendResult) :
    RustResult (List HostFrame × List HostFrame) :=
  match outbox.head? with
  | none => .ok (inbox, outbox)
  | some host_frame =>
    match from_host_frame host_frame with
    | .panic => .panic
    | .ok none => .ok (inbox, outbox.tail)
    | .ok (some _) =>
      match send with
      | .ok => .ok (ringPush 8 inbox host_frame, outbox.tail)
      | .txBusy => .ok (inbox, outbox)
      | .newModeTimeout => .ok (inbox, outbox)
      | .otherErr =>
        .ok (ringPush 8 inbox { host_frame with flags := host_frame.flags.set .Overflow },
             outbox.tail)

/-! ### Static channel configuration (`channel_config.rs`, `main.rs`,
`gs_class.rs`) -/

/-- `ChannelConstraints` from `channel_config.rs`. -/
structure ChannelConstraints where
  tseg1_min : Nat
  tseg1_max : Nat
  tseg2_min : Nat
  tseg2_max : Nat
  sjw_max : Nat
  brp_min : Nat
  brp_max : Nat
  brp_inc : Nat
deriving DecidableEq, Repr

/-- `Channel` from `channel_config.rs`; `features` is the `u32` feature
bitset built by `ChannelFeatures::new`. -/
structure Channel where
  features : Nat
  fclk_can : Nat
  constraints : ChannelConstraints
  data_constraints : Option ChannelConstraints
deriving DecidableEq, Repr

/-- The single channel configured in `main.rs` lines 71-88: features
ListenOnly | Loopback (bits 1 and 2), 8 MHz clock. -/
def mainChannel : Channel :=
  { features := 3, fclk_can := 8000000,
    constraints := { tseg1_min := 3, tseg1_max := 8, tseg2_min := 2, tseg2_max := 8,
                     sjw_max := 4, brp_min := 1, brp_max := 64, brp_inc := 1 },
    data_constraints := none }

/-- The channel array passed to `GsUsbPort::new` in `main.rs` (one entry). -/
def mainChannels : List Channel := [mainChannel]

/-- `DeviceConfig` from `gs_class.rs`. -/
structure DeviceConfig where
  reserved : List Nat
  icount : Nat
  sw_version : Nat
  hw_version : Nat
deriving DecidableEq, Repr

/-- The `DeviceConfig` built by `GsUsbClass::new` for `C` channels:
`icount = C - 1`. -/
def deviceConfigOf (C sw_version hw_version : Nat) : DeviceConfig :=
  { reserved := [0, 0, 0], icount := C - 1,
    sw_version := sw_version, hw_version := hw_version }

/-- The device config of the firmware: `GsUsbPort::new(_, 64, channels, 2, 1)`
with the single-channel array. -/
def mainDeviceConfig : DeviceConfig :=
  deviceConfigOf mainChannels.length 2 1

/-! ### Theorems for claims C3, C4, C8 and C9 -/

/-- A representative classic CAN frame: standard id 0x123, data frame,
declared length 3, payload 1,2,3. -/
def exampleCanFrame : CanFrame :=
  { id := .Standard 291, rtr := false, dlc := 3, data := [1, 2, 3, 0, 0, 0, 0, 0] }

/-- C3: translating any classic CAN frame to a wire frame panics, because
`to_host_frame` copies the dlc-length `data()` slice (at most 8 bytes) into
the 64-byte payload buffer with `copy_from_slice`, which requires equal
lengths.  Evaluated here at a concrete frame (standard id 0x123, data,
length 3): the claimed round trip never gets past the forward translation. -/
theorem c3_roundtrip_translation_panics :
    to_host_frame exampleCanFrame 1 = RustResult.panic := by
  rfl

/-- Helper: a byte with the overflow bit ored in always reads back as set. -/
theorem lor_one_and_one (v : Nat) : (v ||| 1) &&& 1 = 1 := by
  simp [Nat.and_one_is_mod]

/-- C4: for an outbox head frame that translates successfully, the bridge
submission step moves it into the inbox with the overflow flag bit set and
removes it from the outbox on a non-transient error; leaves both queues
unchanged on TxBusy or NewModeTimeout; and moves it into the inbox unchanged
(transmit echo) on success. -/
theorem c4_outbox_error_handling (inbox outbox : List HostFrame) (f : HostFrame)
    (m : CanFrame) (send : McpSendResult)
    (hHead : outbox.head? = some f)
    (hTr : from_host_frame f = RustResult.ok (some m)) :
    (send = .otherErr →
      outbox_step inbox outbox send =
        RustResult.ok
          (ringPush 8 inbox { f with flags := f.flags.set .Overflow }, outbox.tail) ∧
      ({ f with flags := f.flags.set .Overflow } : HostFrame).flags.is_set .Overflow
        = true) ∧
    (send = .txBusy ∨ send = .newModeTimeout →
      outbox_step inbox outbox send = RustResult.ok (inbox, outbox)) ∧
    (send = .ok →
      outbox_step inbox outbox send = RustResult.ok (ringPush 8 inbox f, outbox.tail)) := by
  refine ⟨?_, ?_, ?_⟩
  · rintro rfl
    refine ⟨?_, ?_⟩
    · simp only [outbox_step, hHead, hTr]
    · simp [HostFrameFlags.is_set, HostFrameFlags.set, HostFrameFlagsBits.toNat,
        lor_one_and_one]
  · rintro (rfl | rfl) <;> simp only [outbox_step, hHead, hTr]
  · rintro rfl
    simp only [outbox_step, hHead, hTr]

/-- Witness for C4 at a concrete state: outbox holding one all-zero standard
data frame, empty inbox, non-transient send error. -/
theorem c4_outbox_error_handling_witness :
    outbox_step []
        [HostFrame.new none (HostCanId.new 0 []) 0 0 (HostFrameFlags.new [])
          (List.replicate 64 0)] McpSendResult.otherErr =
      RustResult.ok
        ([{ HostFrame.new none (HostCanId.new 0 []) 0 0 (HostFrameFlags.new [])
              (List.replicate 64 0) with
            flags := (HostFrameFlags.new []).set .Overflow }], []) := by
  have h := c4_outbox_error_handling []
    [HostFrame.new none (HostCanId.new 0 []) 0 0 (HostFrameFlags.new [])
      (List.replicate 64 0)]
    (HostFrame.new none (HostCanId.new 0 []) 0 0 (HostFrameFlags.new [])
      (List.replicate 64 0))
    { id := .Standard 0, rtr := false, dlc := 0, data := List.replicate 8 0 }
    McpSendResult.otherErr rfl (by rfl)
  exact (h.1 rfl).1

/-- C8 counterexample: a wire frame with the extended-id bit clear and packed
identifier 0x800 — not representable as an 11-bit standard identifier — is
not rejected: `from_host_frame` returns a frame whose standard identifier
carries the raw value 0x800 unchecked, where the claim requires `none`. -/
theorem c8_reverse_translation_counterexample :
    from_host_frame
        (HostFrame.new none ⟨2048⟩ 0 0 (HostFrameFlags.new []) (List.replicate 64 0)) =
      RustResult.ok
        (some { id := CanId.Standard 2048, rtr := false, dlc := 0,
                data := List.replicate 8 0 }) ∧
    ¬ (2048 ≤ 2047) := by
  constructor
  · rfl
  · decide

/-- C8 amended: `from_host_frame` selects standard vs. extended representation
by the extended-id bit and remote vs. data by the remote bit; it returns
`none` exactly when the declared length exceeds 8 (for remote frames, or data
frames with length at most 64), panics on a data frame whose declared length
exceeds the 64-byte buffer, and never validates the identifier: the
non-extended case truncates the packed 29-bit identifier to 16 bits and uses
it unchecked. -/
theorem c8_reverse_translation_amended (w : HostFrame) (hw : w.bytes.length = 64) :
    (from_host_frame w = RustResult.panic ↔
      w.can_id.is_set .RemoteFrame = false ∧ 64 < w.can_dlc) ∧
    (from_host_frame w = RustResult.ok none ↔
      8 < w.can_dlc ∧ (w.can_id.is_set .RemoteFrame = true ∨ w.can_dlc ≤ 64)) ∧
    (∀ f : CanFrame, from_host_frame w = RustResult.ok (some f) →
      f.rtr = w.can_id.is_set .RemoteFrame ∧
      f.isExtended = w.can_id.is_set .ExtendedId ∧
      f.dlc = w.can_dlc ∧ w.can_dlc ≤ 8 ∧
      (w.can_id.is_set .ExtendedId = false →
        f.id = CanId.Standard (w.can_id.id % 65536)) ∧
      (w.can_id.is_set .ExtendedId = true → f.id = CanId.Extended w.can_id.id)) := by
  refine ⟨?_, ?_, ?_⟩
  · by_cases hR : w.can_id.is_set .RemoteFrame
    · simp [from_host_frame, hR]
    · by_cases hD : w.can_dlc ≤ 64
      · simp [from_host_frame, hR, hw, hD]
      · simp [from_host_frame, hR, hw, hD]
        omega
  · by_cases hR : w.can_id.is_set .RemoteFrame
    · by_cases hD8 : 8 < w.can_dlc
      · simp [from_host_frame, CanFrame.new_remote, hR, hD8]
      · simp [from_host_frame, CanFrame.new_remote, hR, hD8]
    · by_cases hD : w.can_dlc ≤ 64
      · by_cases hD8 : 8 < w.can_dlc
        · simp [from_host_frame, CanFrame.new, hR, hw, hD, hD8,
            List.length_take, Nat.min_eq_left hD]
        · simp [from_host_frame, CanFrame.new, hR, hw, hD, hD8,
            List.length_take, Nat.min_eq_left hD]
      · simp [from_host_frame, hR, hw, hD]
  · intro f hf
    by_cases hR : w.can_id.is_set .RemoteFrame
    · simp only [from_host_frame, hR, if_true, if_pos] at hf
      unfold CanFrame.new_remote at hf
      by_cases hD8 : 8 < w.can_dlc
      · rw [if_pos hD8] at hf
        exact absurd hf (by simp)
      · rw [if_neg hD8] at hf
        simp only [RustResult.ok.injEq, Option.some.injEq] at hf
        subst hf
        by_cases hE : w.can_id.is_set .ExtendedId
        · exact ⟨by simp [hR], by simp [CanFrame.isExtended, hE], rfl, by omega,
            by simp [hE], by simp [hE]⟩
        · exact ⟨by simp [hR], by simp [CanFrame.isExtended, hE], rfl, by omega,
            by simp [hE], by simp [hE]⟩
    · by_cases hD : w.can_dlc ≤ 64
      · simp only [from_host_frame, hR, if_false, Bool.false_eq_true, if_neg hR] at hf
        rw [if_pos (by omega : w.can_dlc ≤ w.bytes.length)] at hf
        unfold CanFrame.new at hf
        by_cases hD8 : 8 < w.can_dlc
        · rw [if_pos (by simp [List.length_take, hw]; omega :
            (w.bytes.take w.can_dlc).length > 8)] at hf
          exact absurd hf (by simp)
        · rw [if_neg (by simp [List.length_take, hw]; omega :
            ¬ (w.bytes.take w.can_dlc).length > 8)] at hf
          simp only [RustResult.ok.injEq, Option.some.injEq] at hf
          subst hf
          by_cases hE : w.can_id.is_set .ExtendedId
          · exact ⟨by simp [hR], by simp [CanFrame.isExtended, hE], 
              by simp [List.length_take, hw]; omega, by omega,
              by simp [hE], by simp [hE]⟩
          · exact ⟨by simp [hR], by simp [CanFrame.isExtended, hE],
              by simp [List.length_take, hw]; omega, by omega,
              by simp [hE], by simp [hE]⟩
      · simp only [from_host_frame, hR, if_neg hR] at hf
        rw [if_neg (by omega : ¬ w.can_dlc ≤ w.bytes.length)] at hf
        exact absurd hf (by simp)

/-- A remote wire frame with declared length 9 (remote bit = bit 30 set). -/
def remoteHostFrame9 : HostFrame :=
  HostFrame.new none ⟨1073741824⟩ 9 0 (HostFrameFlags.new []) (List.replicate 64 0)

/-- Witness for C8 amended: a remote frame with declared length 9 is rejected
(`none`), by the amended characterization applied at that frame. -/
theorem c8_reverse_translation_amended_witness :
    from_host_frame remoteHostFrame9 = RustResult.ok none :=
  (c8_reverse_translation_amended remoteHostFrame9 (by rfl)).2.1.mpr
    ⟨by decide, Or.inl (by decide)⟩

/-- Helper: the forward translation panics for every transceiver frame,
because `data()` is at most 8 bytes while `copy_from_slice` expects exactly
the 64-byte buffer length. -/
theorem to_host_frame_data_len_panics (f : CanFrame) (ch : Nat)
    (hf : f.data.length = 8) : to_host_frame f ch = RustResult.panic := by
  have hlen : ¬ (f.dataSlice.length = (List.replicate (64 : Nat) (0 : Nat)).length) := by
    simp only [CanFrame.dataSlice, List.length_take, List.length_replicate, hf]
    omega
  unfold to_host_frame copy_from_slice
  rw [if_neg hlen]

/-- A second representative transceiver frame (extended id 70000, length 2). -/
def exampleCanFrame2 : CanFrame :=
  { id := .Extended 70000, rtr := false, dlc := 2, data := [9, 9, 0, 0, 0, 0, 0, 0] }

/-- C9 counterexample: the receive step of the bridge loop does not enqueue
the received frame (with any channel index): evaluated at a concrete received
frame, the translation panics inside `copy_from_slice` before any push into
the inbox. -/
theorem c9_receive_counterexample :
    receive_step [] (some exampleCanFrame2) = RustResult.panic := by
  rfl

/-- C9 amended: the firmware configures exactly one channel and its
`DeviceConfig` advertises `icount = 0` (channel count 1, valid index 0), and
the bridge loop hands every received transceiver frame to the wire-frame
translation with channel index 1; that translation panics while copying the
payload, so no frame is actually enqueued host-bound. -/
theorem c9_receive_amended :
    mainChannels.length = 1 ∧
    mainDeviceConfig.icount = 0 ∧
    (∀ f : CanFrame, f.data.length = 8 → to_host_frame f 1 = RustResult.panic) ∧
    (∀ (inbox : List HostFrame) (f : CanFrame), f.data.length = 8 →
      receive_step inbox (some f) = RustResult.panic) := by
  refine ⟨rfl, rfl, ?_, ?_⟩
  · intro f hf
    exact to_host_frame_data_len_panics f 1 hf
  · intro inbox f hf
    simp only [receive_step, to_host_frame_data_len_panics f 1 hf]

/-- Witness for C9 amended at a concrete frame: the translation invoked by
the receive step panics. -/
theorem c9_receive_amended_witness :
    to_host_frame exampleCanFrame2 1 = RustResult.panic :=
  c9_receive_amended.2.2.1 exampleCanFrame2 (by rfl)

/-! ### Control protocol (`channel_event.rs`, `gs_class.rs`) -/

/-- `BitTiming` from `channel_event.rs`: the five `u32` fields of a gs_usb
bit-timing command. -/
structure BitTiming where
  prop_seg : Nat
  phase_seg1 : Nat
  phase_seg2 : Nat
  sjw : Nat
  brp : Nat
deriving DecidableEq, Repr

/-- `BitTiming::bit_rate`: `(fclk / brp) / (1 + prop_seg + phase_seg1 +
phase_seg2)`.  Rust `u32` division panics on a zero divisor, and the sum in
the second divisor wraps at 2^32 (release-profile semantics); both zero-divisor
cases are the panic outcome. -/
def BitTiming.bit_rate (t : BitTiming) (channel : Channel) : RustResult Nat :=
  if t.brp = 0 then .panic
  else
    if (1 + t.prop_seg + t.phase_seg1 + t.phase_seg2) % 4294967296 = 0 then .panic
    else .ok ((channel.fclk_can / t.brp) /
      ((1 + t.prop_seg + t.phase_seg1 + t.phase_seg2) % 4294967296))

/-- `ChannelIdentify` from `channel_event.rs`: a `u32` on/off word. -/
structure ChannelIdentify where
  val : Nat
deriving DecidableEq, Repr

/-- `ChannelEvent` from `channel_event.rs`: the decoded control command with
its channel index. -/
inductive ChannelEvent where
  | BitTiming (timing : BitTiming) (channel : Nat)
  | DataBitTiming (timing : BitTiming) (channel : Nat)
  | ChannelMode (mode : ChannelMode) (channel : Nat)
  | Identify (identify : ChannelIdentify) (channel : Nat)
deriving DecidableEq, Repr

/-- `GsUsbRequest` from `gs_class.rs`: the vendor request codes 0..=11. -/
inductive GsUsbRequest where
  | HostFormat | BitTiming | Mode | Berr | BtConst | DeviceConfig
  | Timestamp | Identify | GetUserId | SetUserId | DataBitTiming | BtConstExt
deriving DecidableEq, Repr

/-- `GsUsbRequest::from_raw`: rejects raw codes above 11, otherwise the code
is the discriminant (the source transmutes; embedded as the explicit table). -/
def GsUsbRequest.from_raw (raw : Nat) : Option GsUsbRequest :=
  match raw with
  | 0 => some .HostFormat
  | 1 => some .BitTiming
  | 2 => some .Mode
  | 3 => some .Berr
  | 4 => some .BtConst
  | 5 => some .DeviceConfig
  | 6 => some .Timestamp
  | 7 => some .Identify
  | 8 => some .GetUserId
  | 9 => some .SetUserId
  | 10 => some .DataBitTiming
  | 11 => some .BtConstExt
  | _ => none

/-- A little-endian `u32` read at `off`, as performed by the `scroll` crate's
derived `Pread` implementations; fails when fewer than four bytes remain. -/
def readU32LE (data : List Nat) (off : Nat) : Option Nat :=
  match data.get? off, data.get? (off + 1), data.get? (off + 2), data.get? (off + 3) with
  | some b0, some b1, some b2, some b3 =>
      some (b0 % 256 + 256 * (b1 % 256) + 65536 * (b2 % 256) + 16777216 * (b3 % 256))
  | _, _, _, _ => none

/-- Derived `Pread` decode of `BitTiming`: five successive little-endian
`u32` fields. -/
def pread_BitTiming (data : List Nat) : Option BitTiming := do
  let p ← readU32LE data 0
  let s1 ← readU32LE data 4
  let s2 ← readU32LE data 8
  let sj ← readU32LE data 12
  let brp ← readU32LE data 16
  pure ⟨p, s1, s2, sj, brp⟩

/-- Derived `Pread` decode of `ChannelMode`: mode word then flag word. -/
def pread_ChannelMode (data : List Nat) : Option ChannelMode := do
  let mode ← readU32LE data 0
  let flags ← readU32LE data 4
  pure ⟨mode, ⟨flags⟩⟩

/-- Derived `Pread` decode of `ChannelIdentify`: one `u32`. -/
def pread_ChannelIdentify (data : List Nat) : Option ChannelIdentify := do
  let v ← readU32LE data 0
  pure ⟨v⟩

/-- A USB control request as seen by `control_out`: `request_type` 2 means
Vendor, `recipient` 1 means Interface (the `usb_device` discriminants);
`value` carries the channel selector and `data` the transfer payload. -/
structure ControlRequest where
  request_type : Nat
  recipient : Nat
  index : Nat
  request : Nat
  value : Nat
  data : List Nat
deriving DecidableEq, Repr

/-- The transfer response issued by the control handler. -/
inductive ControlOutcome where
  | ignored | accepted | rejected
deriving DecidableEq, Repr

/-- The `control_event` computation of `GsUsbClass::control_out` (lines
121-146): the four decodable commands require a channel selector below `C`
and a successful payload decode; every other case yields no event. -/
def decoded_control_event (C : Nat) (req : ControlRequest) : Option ChannelEvent :=
  match GsUsbRequest.from_raw req.request with
  | some .BitTiming =>
      if req.value < C then (pread_BitTiming req.data).map (.BitTiming · req.value)
      else none
  | some .DataBitTiming =>
      if req.value < C then (pread_BitTiming req.data).map (.DataBitTiming · req.value)
      else none
  | some .Mode =>
      if req.value < C then (pread_ChannelMode req.data).map (.ChannelMode · req.value)
      else none
  | some .Identify =>
      if req.value < C then (pread_ChannelIdentify req.data).map (.Identify · req.value)
      else none
  | _ => none

/-- `GsUsbClass::control_out` (lines 103-158) as a state transformer on the
single event slot: requests that are not vendor/interface-scoped or carry a
foreign interface index are ignored; HostFormat is accepted without touching
the slot; otherwise the slot is overwritten with the decode result (possibly
clearing it) and the transfer is accepted exactly when an event was stored. -/
def control_out (C comm_if : Nat) (req : ControlRequest)
    (pending : Option ChannelEvent) : Option ChannelEvent × ControlOutcome :=
  if req.request_type = 2 ∧ req.recipient = 1 ∧ req.index = comm_if then
    if GsUsbRequest.from_raw req.request = some GsUsbRequest.HostFormat then
      (pending, .accepted)
    else
      match decoded_control_event C req with
      | some e => (some e, .accepted)
      | none => (none, .rejected)
  else (pending, .ignored)

/-- `GsUsbClass::read_control_event` (lines 82-87): swaps the slot with
`None`, returning the pending event and clearing the slot. -/
def read_control_event (pending : Option ChannelEvent) :
    Option ChannelEvent × Option ChannelEvent :=
  (pending, none)

/-! ### Theorems for claims C7 and C10 -/

/-- C7: `read_control_event` takes and clears the single pending event
(returning none when none is pending), and a successfully decoded control-OUT
command stores its event in the slot regardless of any unread pending event,
so only the most recent unread event is ever returned. -/
theorem c7_control_event_mailbox :
    (∀ pending : Option ChannelEvent, read_control_event pending = (pending, none)) ∧
    (read_control_event (none : Option ChannelEvent)).1 = none ∧
    (∀ (C comm_if : Nat) (req : ControlRequest) (pending : Option ChannelEvent)
        (e : ChannelEvent),
      req.request_type = 2 → req.recipient = 1 → req.index = comm_if →
      decoded_control_event C req = some e →
      control_out C comm_if req pending = (some e, ControlOutcome.accepted)) := by
  refine ⟨fun _ => rfl, rfl, ?_⟩
  intro C comm_if req pending e h1 h2 h3 hdec
  have hnf : ¬ GsUsbRequest.from_raw req.request = some GsUsbRequest.HostFormat := by
    intro hcontra
    rw [decoded_control_event, hcontra] at hdec
    simp at hdec
  unfold control_out
  rw [if_pos ⟨h1, h2, h3⟩, if_neg hnf, hdec]

/-- A concrete Mode control request: vendor/interface request code 2,
channel selector 0, payload mode = 1 and flags = 3 (little endian). -/
def modeRequest : ControlRequest :=
  { request_type := 2, recipient := 1, index := 0, request := 2, value := 0,
    data := [1, 0, 0, 0, 3, 0, 0, 0] }

/-- Witness for C7: the concrete Mode request overwrites a pending bit-timing
event and its event is the one subsequently stored. -/
theorem c7_control_event_mailbox_witness :
    control_out 1 0 modeRequest (some (ChannelEvent.BitTiming ⟨3, 3, 2, 1, 8⟩ 0)) =
      (some (ChannelEvent.ChannelMode ⟨1, ⟨3⟩⟩ 0), ControlOutcome.accepted) :=
  c7_control_event_mailbox.2.2 1 0 modeRequest
    (some (ChannelEvent.BitTiming ⟨3, 3, 2, 1, 8⟩ 0))
    (ChannelEvent.ChannelMode ⟨1, ⟨3⟩⟩ 0) rfl rfl rfl (by rfl)

/-- C10: a BitTiming control transfer whose payload decodes with `brp = 0` is
accepted by the control handler for the valid channel index 0 and becomes the
pending event; `BitTiming::bit_rate` on that event divides the channel clock
by `brp` with no zero guard, so its division-by-zero panic is reachable from
the public control interface. -/
theorem c10_brp_zero_division_reachable (req : ControlRequest)
    (pending : Option ChannelEvent) (t : BitTiming)
    (h1 : req.request_type = 2) (h2 : req.recipient = 1) (h3 : req.index = 0)
    (h4 : req.request = 1) (h5 : req.value = 0)
    (hdec : pread_BitTiming req.data = some t) (hbrp : t.brp = 0) :
    control_out 1 0 req pending =
      (some (ChannelEvent.BitTiming t 0), ControlOutcome.accepted) ∧
    (∀ channel : Channel, t.bit_rate channel = RustResult.panic) := by
  constructor
  · have hfr : GsUsbRequest.from_raw req.request = some GsUsbRequest.BitTiming := by
      rw [h4]; rfl
    have hdec' : decoded_control_event 1 req = some (ChannelEvent.BitTiming t 0) := by
      rw [decoded_control_event, hfr]
      rw [if_pos (by omega : req.value < 1), hdec]
      simp [h5]
    unfold control_out
    rw [if_pos ⟨h1, h2, h3⟩, if_neg (by rw [hfr]; simp), hdec']
  · intro channel
    unfold BitTiming.bit_rate
    rw [if_pos hbrp]

/-- The concrete BitTiming control request of the spec scenario, but with
`brp = 0`: prop_seg 3, phase_seg1 3, phase_seg2 2, sjw 1, brp 0. -/
def brpZeroRequest : ControlRequest :=
  { request_type := 2, recipient := 1, index := 0, request := 1, value := 0,
    data := [3, 0, 0, 0, 3, 0, 0, 0, 2, 0, 0, 0, 1, 0, 0, 0, 0, 0, 0, 0] }

/-- Witness for C10 at the concrete request: accepted with the brp = 0 event
pending, and the bit-rate computation on the firmware channel panics. -/
theorem c10_brp_zero_division_reachable_witness :
    control_out 1 0 brpZeroRequest none =
      (some (ChannelEvent.BitTiming ⟨3, 3, 2, 1, 0⟩ 0), ControlOutcome.accepted) ∧
    BitTiming.bit_rate ⟨3, 3, 2, 1, 0⟩ mainChannel = RustResult.panic := by
  have h := c10_brp_zero_division_reachable brpZeroRequest none ⟨3, 3, 2, 1, 0⟩
    rfl rfl rfl rfl rfl (by rfl) rfl
  exact ⟨h.1, h.2 mainChannel⟩

/-! ### Bulk port write state machine (`gs_port.rs`) -/

/-- `WriteState` from `gs_port.rs`: idle, or a transfer with `remainder`
bytes still to send. -/
inductive WriteState where
  | Ready
  | Writing (remainder : Nat)
deriving DecidableEq, Repr

/-- Whether the write side is `Ready` (the `was_writing_ready` /
`is_writing_ready` comparison of `poll`). -/
def WriteState.isReady : WriteState → Bool
  | .Ready => true
  | .Writing _ => false

/-- The endpoint's answer to a `write_packet` call: number of bytes accepted,
would-block, or any other error. -/
inductive WriteResult where
  | ok (bytes : Nat)
  | wouldBlock
  | err
deriving DecidableEq, Repr

/-- The stall-management calls issued on the device-to-host endpoint. -/
inductive StallCall where
  | stall | unstall
deriving DecidableEq, Repr

/-- The write half of `GsUsbPort::poll` (`gs_port.rs` lines 96-122),
parameterized by the frame size `fs`, the negotiated packet size `mps`, the
serialized frame in the write buffer, and the endpoint's answer: in
`Writing 0` an explicit zero-length packet terminates the transfer (its
result is ignored) and the state returns to `Ready`; otherwise the slice
`write_buffer[fs - remainder .. min fs (fs - remainder + mps)]` is submitted,
and the state continues with `Writing (remainder - bytes)` when the endpoint
accepted a full packet, returns to `Ready` on a short write or a
non-would-block error, and is left unchanged on would-block.  The second
component is the packet handed over to the endpoint (`none` when nothing was
accepted). -/
def poll_write (fs mps : Nat) (buf : List Nat) (res : WriteResult) :
    WriteState → WriteState × Option (List Nat)
  | .Ready => (.Ready, none)
  | .Writing remainder =>
    if remainder = 0 then (.Ready, some [])
    else
      let from_index := fs - remainder
      let to_index := min fs (from_index + mps)
      let pkt := (buf.drop from_index).take (to_index - from_index)
      match res with
      | .ok bytes =>
        if bytes = mps then (.Writing (remainder - bytes), some (pkt.take bytes))
        else (.Ready, some (pkt.take bytes))
      | .wouldBlock => (.Writing remainder, none)
      | .err => (.Ready, none)

/-- The write half of `poll` together with its flow-control signaling
(`gs_port.rs` lines 94 and 124-132): readiness is sampled before and after
the write processing, and when it changed exactly one call is issued — stall
when the new state is `Ready`, unstall when a write is now in flight. -/
def poll_write_side (fs mps : Nat) (buf : List Nat) (res : WriteResult)
    (st : WriteState) : WriteState × Option (List Nat) × List StallCall :=
  let was_writing_ready := st.isReady
  let next := poll_write fs mps buf res st
  let calls : List StallCall :=
    if was_writing_ready = next.1.isReady then []
    else if next.1.isReady then [.stall] else [.unstall]
  (next.1, next.2, calls)

/-- Modelled from the spec: `GsUsbPort::write_frame` is stubbed with a
not-yet-done marker in `gs_port.rs` (its intended body is present only as a
comment), and §4.3 of the specification gives its contract — serialize the
frame into the write buffer and transition `Ready → Writing(frame_size)`, or
report would-block (`none`) while a transfer is already in progress. -/
def write_frame_spec (fs : Nat) : WriteState → Option WriteState
  | .Ready => some (.Writing fs)
  | .Writing _ => none

/-- The cooperating endpoint used to drive a whole transfer: it accepts every
submitted byte, so a data poll in `Writing r` answers `ok` with the requested
slice length. -/
def ideal_result (fs mps : Nat) : WriteState → WriteResult
  | .Ready => .wouldBlock
  | .Writing remainder => .ok (min fs ((fs - remainder) + mps) - (fs - remainder))

/-- Repeated polling against the cooperating endpoint, collecting the emitted
packets; `fuel` bounds the number of polls, and polling stops once the write
side is back to `Ready` (further polls emit nothing). -/
def run_write (fs mps : Nat) (buf : List Nat) : Nat → WriteState → WriteState × List (List Nat)
  | 0, st => (st, [])
  | fuel + 1, st =>
    match st with
    | .Ready => (.Ready, [])
    | .Writing r =>
      let step := poll_write fs mps buf (ideal_result fs mps (.Writing r)) (.Writing r)
      let rest := run_write fs mps buf fuel step.1
      (rest.1, step.2.toList ++ rest.2)

/-- Polling in `Ready` leaves the machine in `Ready` and emits nothing. -/
theorem run_write_ready (fs mps : Nat) (buf : List Nat) (fuel : Nat) :
    run_write fs mps buf fuel .Ready = (.Ready, []) := by
  cases fuel <;> rfl

/-- Helper for C5: driving a transfer with `r` bytes left (out of a frame of
`fs` bytes sitting in the buffer) emits `r / mps` full packets followed by a
zero-length packet when `mps` divides `r`, or a final `r % mps`-byte packet
otherwise, and ends in `Ready`. -/
theorem run_write_writing (fs mps : Nat) (buf : List Nat) (hmps : 0 < mps)
    (hbuf : buf.length = fs) :
    ∀ (r fuel : Nat), r ≤ fs → r + 2 ≤ fuel →
      (run_write fs mps buf fuel (.Writing r)).1 = .Ready ∧
      (run_write fs mps buf fuel (.Writing r)).2.map List.length =
        List.replicate (r / mps) mps ++ (if r % mps = 0 then [0] else [r % mps]) := by
  intro r
  induction r using Nat.strong_induction_on with
  | _ r ih =>
    intro fuel hr hfuel
    obtain ⟨f, rfl⟩ : ∃ f, fuel = f + 1 := ⟨fuel - 1, by omega⟩
    by_cases hr0 : r = 0
    · subst hr0
      simp [run_write, poll_write, run_write_ready, Nat.zero_div, Nat.zero_mod]
    · have hreq : min fs ((fs - r) + mps) - (fs - r) = min r mps := by omega
      have hpkt : ((buf.drop (fs - r)).take (min fs ((fs - r) + mps) - (fs - r))).length
          = min r mps := by
        rw [hreq]
        simp [List.length_take, List.length_drop, hbuf]
        omega
      by_cases hge : mps ≤ r
      · -- full packet, transfer continues with r - mps bytes left
        have hbytes : min fs ((fs - r) + mps) - (fs - r) = mps := by omega
        have hstep : poll_write fs mps buf (ideal_result fs mps (.Writing r)) (.Writing r)
            = (.Writing (r - mps),
               some (((buf.drop (fs - r)).take (min fs ((fs - r) + mps) - (fs - r))).take mps)) := by
          simp [poll_write, ideal_result, hr0, hbytes]
        have hrest := ih (r - mps) (by omega) f (by omega) (by omega)
        have hlen : (((buf.drop (fs - r)).take (min fs ((fs - r) + mps) - (fs - r))).take mps).length
            = mps := by
          simp [List.length_take, hpkt]
          omega
        rw [show run_write fs mps buf (f + 1) (.Writing r)
            = ((run_write fs mps buf f (.Writing (r - mps))).1,
               ((buf.drop (fs - r)).take (min fs ((fs - r) + mps) - (fs - r))).take mps
                 :: (run_write fs mps buf f (.Writing (r - mps))).2) by
          simp [run_write, hstep]]
        refine ⟨hrest.1, ?_⟩
        have hrw : r = (r - mps) + mps := by omega
        rw [List.map_cons, hrest.2, hlen, hrw, Nat.add_div_right _ hmps, Nat.add_mod_right]
        simp [List.replicate_succ]
      · -- short final packet, transfer completes without a zero-length packet
        have hbytes : min fs ((fs - r) + mps) - (fs - r) = r := by omega
        have hne : ¬ (min fs ((fs - r) + mps) - (fs - r) = mps) := by omega
        have hstep : poll_write fs mps buf (ideal_result fs mps (.Writing r)) (.Writing r)
            = (.Ready,
               some (((buf.drop (fs - r)).take (min fs ((fs - r) + mps) - (fs - r))).take
                 (min fs ((fs - r) + mps) - (fs - r)))) := by
          simp [poll_write, ideal_result, hr0, hne]
        have hlen : (((buf.drop (fs - r)).take (min fs ((fs - r) + mps) - (fs - r))).take
            (min fs ((fs - r) + mps) - (fs - r))).length = r := by
          simp [List.length_take, hpkt, hbytes]
          omega
        rw [show run_write fs mps buf (f + 1) (.Writing r)
            = ((run_write fs mps buf f .Ready).1,
               ((buf.drop (fs - r)).take (min fs ((fs - r) + mps) - (fs - r))).take
                 (min fs ((fs - r) + mps) - (fs - r))
                 :: (run_write fs mps buf f .Ready).2) by
          simp [run_write, hstep]]
        rw [run_write_ready]
        refine ⟨rfl, ?_⟩
        have hdiv : r / mps = 0 := Nat.div_eq_of_lt (by omega)
        have hmod : r % mps = r := Nat.mod_eq_of_lt (by omega)
        simp [hlen, hdiv, hmod, hr0]

/-- C5: a frame of size `S` written through the bulk write state machine
(entry `Ready → Writing S` per the specified `write_frame`, then repeated
polling against an endpoint that accepts every packet) emits packets whose
sizes are `S / mps` full packets followed by an explicit zero-length packet
exactly when `mps` divides `S`, and otherwise a final packet carrying the
`S % mps` remainder — `S / mps + 1` packets in total, i.e. `ceil (S / mps)`
data packets plus the terminating zero-length packet when `S` is an exact
multiple — after which the write state is back to `Ready`. -/
theorem c5_write_packetization (S mps : Nat) (buf : List Nat)
    (hmps : 0 < mps) (hbuf : buf.length = S) :
    write_frame_spec S .Ready = some (.Writing S) ∧
    (run_write S mps buf (S + 2) (.Writing S)).1 = .Ready ∧
    (run_write S mps buf (S + 2) (.Writing S)).2.map List.length =
      List.replicate (S / mps) mps ++ (if S % mps = 0 then [0] else [S % mps]) ∧
    (run_write S mps buf (S + 2) (.Writing S)).2.length = S / mps + 1 ∧
    (([] : List Nat) ∈ (run_write S mps buf (S + 2) (.Writing S)).2 ↔ S % mps = 0) := by
  have h := run_write_writing S mps buf hmps hbuf S (S + 2) (Nat.le_refl S) (by omega)
  refine ⟨rfl, h.1, h.2, ?_, ?_, ?_⟩
  · have hlen := congrArg List.length h.2
    rw [List.length_map, List.length_append, List.length_replicate] at hlen
    by_cases hz : S % mps = 0
    · rw [if_pos hz] at hlen
      simpa using hlen
    · rw [if_neg hz] at hlen
      simpa using hlen
  · intro hmem
    have h0 : (0 : Nat) ∈ (run_write S mps buf (S + 2) (.Writing S)).2.map List.length := by
      simpa using List.mem_map_of_mem List.length hmem
    rw [h.2] at h0
    rcases List.mem_append.mp h0 with hrep | htail
    · have := List.eq_of_mem_replicate hrep
      omega
    · by_cases hz : S % mps = 0
      · exact hz
      · rw [if_neg hz] at htail
        simp at htail
        omega
  · intro hz
    have h0 : (0 : Nat) ∈ (run_write S mps buf (S + 2) (.Writing S)).2.map List.length := by
      rw [h.2, if_pos hz]
      simp
    rcases List.mem_map.mp h0 with ⟨x, hx, hlenx⟩
    have hxnil : x = [] := List.length_eq_zero.mp hlenx
    rw [hxnil] at hx
    exact hx

/-- Witness for C5 at the firmware's sizes: frame size 76, packet size 64 —
two packets of 64 and 12 bytes, no zero-length packet, ending in `Ready`. -/
theorem c5_write_packetization_witness :
    (run_write 76 64 (List.replicate 76 0) 78 (.Writing 76)).1 = WriteState.Ready ∧
    (run_write 76 64 (List.replicate 76 0) 78 (.Writing 76)).2.map List.length = [64, 12] := by
  have h := c5_write_packetization 76 64 (List.replicate 76 0) (by omega) (by simp)
  refine ⟨h.2.1, ?_⟩
  rw [h.2.2.1]
  decide

/-- C6: during a poll of the bulk port, the zero or one stall-management call
issued on the device-to-host endpoint is determined by the write-side
readiness transition: no call when readiness is unchanged, a stall call
exactly when the write side changed to `Ready` (idle), and an unstall call
exactly when it changed to a write being in flight. -/
theorem c6_stall_signaling (fs mps : Nat) (buf : List Nat) (res : WriteResult)
    (st : WriteState) :
    ((poll_write_side fs mps buf res st).2.2 = [] ↔
      st.isReady = (poll_write_side fs mps buf res st).1.isReady) ∧
    (StallCall.stall ∈ (poll_write_side fs mps buf res st).2.2 ↔
      (st.isReady = false ∧ (poll_write_side fs mps buf res st).1.isReady = true)) ∧
    (StallCall.unstall ∈ (poll_write_side fs mps buf res st).2.2 ↔
      (st.isReady = true ∧ (poll_write_side fs mps buf res st).1.isReady = false)) ∧
    (poll_write_side fs mps buf res st).2.2.length ≤ 1 := by
  unfold poll_write_side
  cases h1 : st.isReady <;>
    cases h2 : (poll_write fs mps buf res st).1.isReady <;>
      simp [h1, h2]

end CanbedGs
